import Mathlib

/-!
Verification of the FileWatcherInterface repository (fswatcher.c) against its
natural-language specification.

The development shallowly embeds the watcher core: the watch registry
(add_watch, get_path_by_wd), the callback registry (register_callback), the
pattern matcher (matches_pattern, with a model of libc fnmatch under flags 0),
the recursive installer (ftw_callback / watch_recursively over the visit
records produced by nftw), the event dispatcher (process_event) and the
per-event step of the main loop (loopStep), together with cleanup.

C strings are lists of characters; machine integers are Nat (the event masks
are 32-bit, and the bitwise AND is computed with an explicit 32-bit fueled
recursion so that every definition is executable and kernel-reducible).
The inotify facility is modelled with its documented handle semantics:
watching a path that is already watched returns the existing descriptor,
watching a fresh path returns a fresh one; paths the OS rejects are a
parameter of the environment.
-/

/-- PATH_MAX from limits.h on the target platform. -/
def PATH_MAX : Nat := 4096

/-- MAX_WATCHES from fswatcher.c line 28. -/
def MAX_WATCHES : Nat := 512

/-- MAX_CALLBACKS from fswatcher.c line 26. -/
def MAX_CALLBACKS : Nat := 20

/-- A C string (NUL-terminated char array) is modelled as a list of chars. -/
abbrev CStr := List Char

/-- inotify event bits from sys/inotify.h. -/
def IN_MODIFY : Nat := 2

def IN_ATTRIB : Nat := 4

def IN_MOVED_FROM : Nat := 64

def IN_MOVED_TO : Nat := 128

def IN_CREATE : Nat := 256

def IN_DELETE : Nat := 512

def IN_ISDIR : Nat := 1073741824

/-- Bitwise AND on 32-bit quantities, computed digit by digit with explicit
fuel 32 so the definition is structurally recursive (kernel-reducible).
All masks in the program are uint32, so 32 digits always suffice. -/
def bandFuel : Nat → Nat → Nat → Nat
  | 0, _, _ => 0
  | f + 1, n, m =>
      (if n % 2 = 1 ∧ m % 2 = 1 then 1 else 0) + 2 * bandFuel f (n / 2) (m / 2)

/-- The C expression (a & b) on uint32 event masks. -/
def band32 (n m : Nat) : Nat := bandFuel 32 n m

/-- One item of a bracket expression in a glob pattern. -/
inductive BrItem where
  | single (c : Char)
  | range (a b : Char)
deriving DecidableEq

/-- Parse the interior of a glob bracket expression up to the closing
bracket; returns the items and the rest of the pattern, or none when the
expression is unterminated (in which case fnmatch treats the opening
bracket as a literal character). -/
def parseBracketItems : List Char → Option (List BrItem × List Char)
  | [] => none
  | ']' :: rest => some ([], rest)
  | a :: '-' :: ']' :: rest => some ([BrItem.single a, BrItem.single '-'], rest)
  | a :: '-' :: b :: rest =>
      match parseBracketItems rest with
      | some (items, r) => some (BrItem.range a b :: items, r)
      | none => none
  | a :: rest =>
      match parseBracketItems rest with
      | some (items, r) => some (BrItem.single a :: items, r)
      | none => none

/-- Parse a full bracket expression (after the opening bracket): optional
negation, a possible literal closing bracket as first member, then items. -/
def parseBracket (l : List Char) : Option (Bool × List BrItem × List Char) :=
  match l with
  | '!' :: ']' :: rest =>
      (parseBracketItems rest).map (fun pr => (true, BrItem.single ']' :: pr.1, pr.2))
  | '^' :: ']' :: rest =>
      (parseBracketItems rest).map (fun pr => (true, BrItem.single ']' :: pr.1, pr.2))
  | '!' :: rest => (parseBracketItems rest).map (fun pr => (true, pr.1, pr.2))
  | '^' :: rest => (parseBracketItems rest).map (fun pr => (true, pr.1, pr.2))
  | ']' :: rest =>
      (parseBracketItems rest).map (fun pr => (false, BrItem.single ']' :: pr.1, pr.2))
  | _ => (parseBracketItems l).map (fun pr => (false, pr.1, pr.2))

/-- Does a character satisfy a (possibly negated) bracket expression? -/
def brMatch (neg : Bool) (items : List BrItem) (c : Char) : Bool :=
  let m := items.any (fun it =>
    match it with
    | BrItem.single a => a == c
    | BrItem.range a b => decide (a ≤ c) && decide (c ≤ b))
  if neg then !m else m

/-- Model of libc fnmatch(pattern, string, 0): whole-string shell glob with
star, question mark, bracket classes and backslash quoting; star may match
any character including dots and slashes since neither FNM_PATHNAME nor
FNM_PERIOD is set. The recursion is driven by explicit fuel; every recursive
call strictly shrinks pattern-length plus string-length, so the initial fuel
used by fnmatch below always suffices. -/
def fnmatchFuel : Nat → List Char → List Char → Bool
  | 0, _, _ => false
  | _ + 1, [], [] => true
  | _ + 1, [], _ :: _ => false
  | f + 1, '*' :: ps, s =>
      fnmatchFuel f ps s ||
        (match s with
         | [] => false
         | _ :: s2 => fnmatchFuel f ('*' :: ps) s2)
  | f + 1, '?' :: ps, _ :: s => fnmatchFuel f ps s
  | _ + 1, '?' :: _, [] => false
  | f + 1, '[' :: ps, c :: s =>
      (match parseBracket ps with
       | some (neg, items, rest) => brMatch neg items c && fnmatchFuel f rest s
       | none => ('[' == c) && fnmatchFuel f ps s)
  | _ + 1, '[' :: _, [] => false
  | f + 1, '\\' :: p :: ps, c :: s => (p == c) && fnmatchFuel f ps s
  | _ + 1, '\\' :: _, _ => false
  | f + 1, p :: ps, c :: s => (p == c) && fnmatchFuel f ps s
  | _ + 1, _ :: _, [] => false

/-- fnmatch(pattern, string, 0) == 0 in the source, as a Bool. -/
def fnmatch (pat s : CStr) : Bool := fnmatchFuel (pat.length + s.length + 1) pat s

/-- The scan loop inside matches_pattern (fswatcher.c lines 155 to 159). -/
def matchLoop : List CStr → CStr → Bool
  | [], _ => false
  | p :: ps, f => if fnmatch p f then true else matchLoop ps f

/-- matches_pattern (fswatcher.c lines 150 to 162): zero patterns means
match everything, otherwise scan the pattern list. -/
def matches_pattern (pats : List CStr) (f : CStr) : Bool :=
  if pats.length = 0 then true else matchLoop pats f


/-- One entry of the watch table (struct watch_info, fswatcher.c lines 31
to 34): a watch descriptor and the stored path, already truncated to
PATH_MAX minus one characters as strncpy stores it. -/
structure WatchInfo where
  wd : Nat
  path : CStr
deriving DecidableEq

/-- One entry of the callback table (struct callback_info, fswatcher.c lines
40 to 44). The function pointer is modelled by a numeric identity; an
invocation record names it together with its arguments. -/
structure CallbackInfo where
  mask : Nat
  pat : Option CStr
  cb : Nat
deriving DecidableEq

/-- The environment: which paths the OS notification facility rejects
(permissions, nonexistence, not a directory, resource exhaustion). -/
structure Env where
  badPaths : List CStr
deriving DecidableEq

/-- The global state of fswatcher.c (lines 47 to 55), together with the
OS-side inotify watch table, which maps each issued descriptor to the full
path it was issued for: inotify returns the existing descriptor when a path
that is already watched is watched again, and a fresh one otherwise. -/
structure WatcherState where
  recursive_mode : Bool
  pats : List CStr
  fd : Int
  watches : List WatchInfo
  callbacks : List CallbackInfo
  osTable : List (Nat × CStr)
  nextWd : Nat
deriving DecidableEq

/-- strncpy(dest, path, PATH_MAX - 1) followed by a forced NUL terminator
(fswatcher.c lines 102 to 103): keep the first PATH_MAX - 1 characters. -/
def trunc (p : CStr) : CStr := p.take (PATH_MAX - 1)

/-- The event mask every watch is installed with (fswatcher.c lines 87
to 89). The six bits are distinct powers of two, so their sum is their
bitwise OR. -/
def WATCH_MASK : Nat :=
  IN_CREATE + IN_MODIFY + IN_DELETE + IN_MOVED_FROM + IN_MOVED_TO + IN_ATTRIB

/-- Model of the inotify_add_watch system call: fails on a rejected path;
returns the already-issued descriptor when the path is already in the watch
table of the kernel, and a fresh descriptor otherwise. The mask argument
only updates kernel-side filtering and is not observable to the program
state, so it is ignored here. -/
def inotify_add_watch (env : Env) (s : WatcherState) (p : CStr) (_mask : Nat) :
    Option (Nat × WatcherState) :=
  if p ∈ env.badPaths then none
  else
    match s.osTable.find? (fun pr => decide (pr.2 = p)) with
    | some pr => some (pr.1, s)
    | none =>
        some (s.nextWd,
          { s with osTable := s.osTable ++ [(s.nextWd, p)], nextWd := s.nextWd + 1 })

/-- add_watch (fswatcher.c lines 75 to 113): refuse when the table is full,
ask inotify for a descriptor, then append the entry with the path stored
through strncpy truncation; returns the descriptor on success. -/
def add_watch (env : Env) (s : WatcherState) (p : CStr) : Option Nat × WatcherState :=
  if s.watches.length ≥ MAX_WATCHES then (none, s)
  else
    match inotify_add_watch env s p WATCH_MASK with
    | none => (none, s)
    | some (wd, s1) =>
        (some wd, { s1 with watches := s1.watches ++ [⟨wd, trunc p⟩] })

/-- get_path_by_wd (fswatcher.c lines 118 to 125): linear scan from index
zero, first match wins, NULL when no entry matches. -/
def get_path_by_wd (s : WatcherState) (wd : Nat) : Option CStr :=
  (s.watches.find? (fun w => decide (w.wd = wd))).map (fun w => w.path)

/-- register_callback (fswatcher.c lines 60 to 70): refuse when the table is
full, otherwise append and return the entry index. -/
def register_callback (s : WatcherState) (mask : Nat) (pat : Option CStr) (cb : Nat) :
    Option Nat × WatcherState :=
  if s.callbacks.length ≥ MAX_CALLBACKS then (none, s)
  else
    (some s.callbacks.length, { s with callbacks := s.callbacks ++ [⟨mask, pat, cb⟩] })

/-- One visit record handed to ftw_callback by nftw: the full path of the
object, whether its typeflag is FTW_D, and its level (the root of the walk
is visited at level zero). -/
structure FtwRecord where
  path : CStr
  isDir : Bool
  level : Int
deriving DecidableEq

/-- ftw_callback (fswatcher.c lines 130 to 135): install a watch whenever
the visited object is a directory at level at least zero, and always return
zero so traversal continues past individual failures. -/
def ftw_callback (env : Env) (s : WatcherState) (r : FtwRecord) : WatcherState :=
  if r.isDir = true ∧ 0 ≤ r.level then (add_watch env s r.path).2 else s

/-- watch_recursively (fswatcher.c lines 137 to 145): nftw feeds every visit
record of the physical walk to ftw_callback in traversal order. -/
def watch_recursively (env : Env) : WatcherState → List FtwRecord → WatcherState
  | s, [] => s
  | s, r :: rs => watch_recursively env (ftw_callback env s r) rs

/-- A record of one handler invocation: which callback fired and with which
path and filename arguments. -/
structure Invocation where
  cb : Nat
  path : CStr
  name : CStr
deriving DecidableEq

/-- The callback loop of process_event (fswatcher.c lines 196 to 205):
scan the table in registration order; fire an entry when its mask intersects
the event mask and its pattern is NULL or fnmatch accepts the filename. -/
def run_callbacks (mask : Nat) (path name : CStr) : List CallbackInfo → List Invocation
  | [] => []
  | c :: rest =>
      if band32 c.mask mask ≠ 0 then
        match c.pat with
        | none => ⟨c.cb, path, name⟩ :: run_callbacks mask path name rest
        | some pat =>
            if fnmatch pat name then ⟨c.cb, path, name⟩ :: run_callbacks mask path name rest
            else run_callbacks mask path name rest
      else run_callbacks mask path name rest

/-- The dispatch condition exactly as the specification states it, for
comparison with the loop above: the event mask intersects the entry mask,
and the pattern is absent or matches the filename. -/
def shouldInvoke (c : CallbackInfo) (mask : Nat) (name : CStr) : Bool :=
  if band32 c.mask mask ≠ 0 then
    match c.pat with
    | none => true
    | some pat => fnmatch pat name
  else false

/-- snprintf(full_path, PATH_MAX, parent slash name) in process_event
(fswatcher.c line 171): the formatted string truncated to PATH_MAX minus one
characters. -/
def fullPathOf (path name : CStr) : CStr := (path ++ '/' :: name).take (PATH_MAX - 1)

/-- process_event (fswatcher.c lines 167 to 206): in recursive mode a
created directory is auto-watched under its freshly formatted full path,
then the callback table is scanned. Returns the new state and the handler
invocations performed. -/
def process_event (env : Env) (s : WatcherState) (mask : Nat) (path name : CStr) :
    WatcherState × List Invocation :=
  let s1 :=
    if s.recursive_mode = true ∧ band32 mask IN_CREATE ≠ 0 ∧ band32 mask IN_ISDIR ≠ 0 then
      (add_watch env s (fullPathOf path name)).2
    else s
  (s1, run_callbacks mask path name s1.callbacks)

/-- One decoded inotify_event record: descriptor, mask, and the name field
(the empty list models len equal to zero). -/
structure RawEvent where
  wd : Nat
  mask : Nat
  name : CStr
deriving DecidableEq

/-- The body of the inner event loop of main for one decoded record
(fswatcher.c lines 400 to 436): skip records with no name; resolve the
descriptor, dropping the record with a warning when unknown; filter by the
global pattern set; only then hand the record to process_event. -/
def loopStep (env : Env) (s : WatcherState) (e : RawEvent) : WatcherState × List Invocation :=
  if e.name.length = 0 then (s, [])
  else
    match get_path_by_wd s e.wd with
    | none => (s, [])
    | some path =>
        if matches_pattern s.pats e.name then process_event env s e.mask path e.name
        else (s, [])

/-- The removal loop of cleanup (fswatcher.c lines 213 to 215): one
inotify_rm_watch call per table entry; returns how many calls were made. -/
def rmAllWatches : List WatchInfo → Nat
  | [] => 0
  | _ :: ws => 1 + rmAllWatches ws

/-- The freeing loop of cleanup (fswatcher.c lines 223 to 225): free is
called on every entry of the callback table; only the non-NULL patterns are
actual deallocations. -/
def freeCallbackPats : List CallbackInfo → Nat
  | [] => 0
  | c :: cs => (if c.pat.isSome then 1 else 0) + freeCallbackPats cs

/-- The externally visible effects of one cleanup call: watch-removal
attempts, descriptor closes, and pattern deallocations. -/
structure CleanupEffects where
  rmAttempts : Nat
  closes : Nat
  frees : Nat
deriving DecidableEq

/-- cleanup (fswatcher.c lines 211 to 226): attempt to remove every watch in
the table, close the descriptor when it is nonnegative, free every callback
pattern. No global variable is written, so the program state is returned
unchanged; in particular neither watch_count nor callback_count is reset and
the descriptor is not invalidated. -/
def cleanup (s : WatcherState) : WatcherState × CleanupEffects :=
  (s,
    { rmAttempts := rmAllWatches s.watches
      closes := if 0 ≤ s.fd then 1 else 0
      frees := freeCallbackPats s.callbacks })

/-- The global state right after startup parsing, before any watch is
installed (fswatcher.c lines 47 to 55 and main up to line 361): empty
tables, configured mode and patterns, an open inotify descriptor, and an
OS table that has issued no descriptor yet (descriptors start at one). -/
def initState (rec : Bool) (pats : List CStr) (fd : Int) : WatcherState :=
  ⟨rec, pats, fd, [], [], [], 1⟩

/-- Every state the program can reach by the operations that touch the
watch registry: startup, direct installs, callback registrations, recursive
installation over any nftw visit list, event-loop steps (which perform the
auto-watch), and cleanup. -/
inductive Reachable (env : Env) : WatcherState → Prop where
  | init : ∀ rec pats fd, Reachable env (initState rec pats fd)
  | install : ∀ s p, Reachable env s → Reachable env (add_watch env s p).2
  | registerCb : ∀ s m pat cb, Reachable env s →
      Reachable env (register_callback s m pat cb).2
  | recurse : ∀ s vs, Reachable env s → Reachable env (watch_recursively env s vs)
  | event : ∀ s e, Reachable env s → Reachable env (loopStep env s e).1
  | shutdown : ∀ s, Reachable env s → Reachable env (cleanup s).1

/-- The invariant tying the registry to the OS watch table: every issued
descriptor is below the fresh counter, the OS table is functional on
descriptors, every registry entry stores the truncation of the full path the
OS issued its descriptor for, and every OS entry is represented in the
registry. -/
def StateInv (s : WatcherState) : Prop :=
  (∀ q ∈ s.osTable, q.1 < s.nextWd) ∧
  (∀ q1 ∈ s.osTable, ∀ q2 ∈ s.osTable, q1.1 = q2.1 → q1.2 = q2.2) ∧
  (∀ w ∈ s.watches, ∃ full, (w.wd, full) ∈ s.osTable ∧ w.path = trunc full) ∧
  (∀ q ∈ s.osTable, ∃ w ∈ s.watches, w.wd = q.1 ∧ w.path = trunc q.2)

/-- Concrete fixtures used below by witnesses and counterexamples. -/
def env0 : Env := ⟨[]⟩

/-- The watched root path, slash tmp slash w. -/
def wp : CStr := ['/', 't', 'm', 'p', '/', 'w']

def patLog : CStr := ['*', '.', 'l', 'o', 'g']

def patTxt : CStr := ['*', '.', 't', 'x', 't']

def nmLog : CStr := ['a', 'p', 'p', '.', 'l', 'o', 'g']

def nmTxt : CStr := ['a', 'p', 'p', '.', 't', 'x', 't']

def nmNew : CStr := ['n', 'e', 'w']

def childA : CStr := wp ++ ['/', 'a']

def grandA : CStr := childA ++ ['/', 'g']

def childB : CStr := wp ++ ['/', 'b']

/-- A path of length PATH_MAX, one character beyond what the registry can
store. -/
def pLong : CStr := List.replicate PATH_MAX 'a'

/-- State after watching the root in recursive mode with the global pattern
star-dot-log configured. -/
def sC1 : WatcherState := (add_watch env0 (initState true [patLog] 3) wp).2

/-- A directory-creation event for a new subdirectory named new, delivered
on the root watch. -/
def eC1 : RawEvent := ⟨1, IN_CREATE + IN_ISDIR, nmNew⟩

/-- State after watching the root in recursive mode with no patterns. -/
def sW1 : WatcherState := (add_watch env0 (initState true [] 3) wp).2

/-- nftw visit list for a tree that consists of the root directory alone. -/
def visitsRootOnly : List FtwRecord := [⟨wp, true, 0⟩]

/-- An environment in which the OS rejects the watch request for childA. -/
def envB : Env := ⟨[childA]⟩

/-- Startup state for the failing-sibling scenario, root already watched. -/
def sStartB : WatcherState := (add_watch envB (initState true [] 3) wp).2

/-- nftw visit list for a tree with root, failing child a with grandchild g,
and sibling child b. -/
def visitsB : List FtwRecord :=
  [⟨wp, true, 0⟩, ⟨childA, true, 1⟩, ⟨grandA, true, 2⟩, ⟨childB, true, 1⟩]

/-- State with one successful install and one registered callback that owns
a duplicated pattern string. -/
def sC3 : WatcherState :=
  (register_callback (add_watch env0 (initState false [] 3) wp).2 IN_CREATE (some patLog) 0).2

/-- State reached by installing the same root path twice, which is exactly
what main plus the nftw walk do in recursive mode. -/
def sDup : WatcherState := (add_watch env0 (add_watch env0 (initState true [] 3) wp).2 wp).2

/-- A state whose watch table is at the configured ceiling. -/
def sFullW : WatcherState :=
  { initState false [] 3 with watches := List.replicate MAX_WATCHES ⟨1, wp⟩ }

/-- A state whose callback table is at the configured maximum. -/
def sFullC : WatcherState :=
  { initState false [] 3 with callbacks := List.replicate MAX_CALLBACKS ⟨IN_CREATE, none, 0⟩ }

/-- Two callbacks with overlapping event masks and disjoint patterns. -/
def cbsOverlap : List CallbackInfo :=
  [⟨IN_CREATE + IN_MODIFY, some patLog, 10⟩, ⟨IN_CREATE + IN_DELETE, some patTxt, 11⟩]

/-- Two callbacks that both match every Created event. -/
def cbsBoth : List CallbackInfo := [⟨IN_CREATE, none, 1⟩, ⟨IN_CREATE, none, 2⟩]

/-- State after one successful install of the root, used for the resolve
after cleanup scenario. -/
def s8b : WatcherState := (add_watch env0 (initState false [] 3) wp).2

/-- A decoded event whose name field is absent (len equal to zero). -/
def eEmpty : RawEvent := ⟨5, IN_CREATE + IN_ISDIR, []⟩

theorem add_watch_cases (env : Env) (s : WatcherState) (p : CStr) :
    ((s.watches.length ≥ MAX_WATCHES ∨ p ∈ env.badPaths) ∧ add_watch env s p = (none, s)) ∨
    (∃ q, s.osTable.find? (fun x => decide (x.2 = p)) = some q ∧
      ¬ s.watches.length ≥ MAX_WATCHES ∧ p ∉ env.badPaths ∧
      add_watch env s p = (some q.1, { s with watches := s.watches ++ [⟨q.1, trunc p⟩] })) ∨
    (s.osTable.find? (fun x => decide (x.2 = p)) = none ∧
      ¬ s.watches.length ≥ MAX_WATCHES ∧ p ∉ env.badPaths ∧
      add_watch env s p = (some s.nextWd,
        { s with watches := s.watches ++ [⟨s.nextWd, trunc p⟩],
                 osTable := s.osTable ++ [(s.nextWd, p)], nextWd := s.nextWd + 1 })) := by
  by_cases hcap : s.watches.length ≥ MAX_WATCHES
  · exact Or.inl ⟨Or.inl hcap, by simp [add_watch, hcap]⟩
  · by_cases hbad : p ∈ env.badPaths
    · exact Or.inl ⟨Or.inr hbad, by simp [add_watch, inotify_add_watch, hcap, hbad]⟩
    · cases hfind : s.osTable.find? (fun x => decide (x.2 = p)) with
      | some q =>
          refine Or.inr (Or.inl ⟨q, rfl, hcap, hbad, ?_⟩)
          simp [add_watch, inotify_add_watch, hcap, hbad, hfind]
      | none =>
          refine Or.inr (Or.inr ⟨rfl, hcap, hbad, ?_⟩)
          simp [add_watch, inotify_add_watch, hcap, hbad, hfind]

theorem StateInv_initState (rec : Bool) (pats : List CStr) (fd : Int) :
    StateInv (initState rec pats fd) := by
  refine ⟨?_, ?_, ?_, ?_⟩ <;> intro q hq <;> simp [initState] at hq

theorem StateInv_add_watch (env : Env) (s : WatcherState) (p : CStr) (hinv : StateInv s) :
    StateInv (add_watch env s p).2 := by
  obtain ⟨h1, h2, h3, h4⟩ := hinv
  rcases add_watch_cases env s p with ⟨_, hc⟩ | ⟨q, hfind, _, _, hc⟩ | ⟨hfind, _, _, hc⟩
  · rw [hc]; exact ⟨h1, h2, h3, h4⟩
  · rw [hc]
    have hqmem : q ∈ s.osTable := List.mem_of_find?_eq_some hfind
    have hq2 : q.2 = p := by simpa using List.find?_some hfind
    refine ⟨h1, h2, ?_, ?_⟩
    · intro w hw
      rcases List.mem_append.mp hw with hw | hw
      · exact h3 w hw
      · have hw' : w = ⟨q.1, trunc p⟩ := by simpa using hw
        subst hw'
        exact ⟨q.2, by simpa using hqmem, by rw [hq2]⟩
    · intro r hr
      obtain ⟨w, hw, hww⟩ := h4 r hr
      exact ⟨w, List.mem_append.mpr (Or.inl hw), hww⟩
  · rw [hc]
    refine ⟨?_, ?_, ?_, ?_⟩
    · intro r hr
      rcases List.mem_append.mp hr with hr | hr
      · exact Nat.lt_succ_of_lt (h1 r hr)
      · have hr' : r = (s.nextWd, p) := by simpa using hr
        subst hr'; exact Nat.lt_succ_self _
    · intro r1 hr1 r2 hr2 heq
      rcases List.mem_append.mp hr1 with hr1 | hr1 <;>
        rcases List.mem_append.mp hr2 with hr2 | hr2
      · exact h2 r1 hr1 r2 hr2 heq
      · have hr2' : r2 = (s.nextWd, p) := by simpa using hr2
        subst hr2'
        exact absurd heq (Nat.ne_of_lt (h1 r1 hr1))
      · have hr1' : r1 = (s.nextWd, p) := by simpa using hr1
        subst hr1'
        exact absurd heq.symm (Nat.ne_of_lt (h1 r2 hr2))
      · have hr1' : r1 = (s.nextWd, p) := by simpa using hr1
        have hr2' : r2 = (s.nextWd, p) := by simpa using hr2
        rw [hr1', hr2']
    · intro w hw
      rcases List.mem_append.mp hw with hw | hw
      · obtain ⟨full, hf, hp⟩ := h3 w hw
        exact ⟨full, List.mem_append.mpr (Or.inl hf), hp⟩
      · have hw' : w = ⟨s.nextWd, trunc p⟩ := by simpa using hw
        subst hw'
        exact ⟨p, List.mem_append.mpr (Or.inr (by simp)), rfl⟩
    · intro r hr
      rcases List.mem_append.mp hr with hr | hr
      · obtain ⟨w, hw, hww⟩ := h4 r hr
        exact ⟨w, List.mem_append.mpr (Or.inl hw), hww⟩
      · have hr' : r = (s.nextWd, p) := by simpa using hr
        subst hr'
        exact ⟨⟨s.nextWd, trunc p⟩, List.mem_append.mpr (Or.inr (by simp)), by simp⟩

theorem StateInv_register_callback (s : WatcherState) (m : Nat) (pat : Option CStr)
    (cb : Nat) (hinv : StateInv s) : StateInv (register_callback s m pat cb).2 := by
  unfold register_callback
  by_cases h : s.callbacks.length ≥ MAX_CALLBACKS
  · simpa [h] using hinv
  · simpa [h] using hinv

theorem StateInv_ftw_callback (env : Env) (s : WatcherState) (r : FtwRecord)
    (hinv : StateInv s) : StateInv (ftw_callback env s r) := by
  unfold ftw_callback
  by_cases h : r.isDir = true ∧ 0 ≤ r.level
  · simpa [h] using StateInv_add_watch env s r.path hinv
  · simpa [h] using hinv

theorem StateInv_watch_recursively (env : Env) :
    ∀ (vs : List FtwRecord) (s : WatcherState), StateInv s →
      StateInv (watch_recursively env s vs)
  | [], _, hinv => hinv
  | r :: rs, s, hinv =>
      StateInv_watch_recursively env rs (ftw_callback env s r)
        (StateInv_ftw_callback env s r hinv)

theorem StateInv_process_event (env : Env) (s : WatcherState) (mask : Nat)
    (path name : CStr) (hinv : StateInv s) :
    StateInv (process_event env s mask path name).1 := by
  unfold process_event
  by_cases h : s.recursive_mode = true ∧ band32 mask IN_CREATE ≠ 0 ∧ band32 mask IN_ISDIR ≠ 0
  · simpa [h] using StateInv_add_watch env s (fullPathOf path name) hinv
  · simpa [h] using hinv

theorem StateInv_loopStep (env : Env) (s : WatcherState) (e : RawEvent)
    (hinv : StateInv s) : StateInv (loopStep env s e).1 := by
  unfold loopStep
  by_cases h0 : e.name.length = 0
  · simpa [h0] using hinv
  · simp only [h0, if_false]
    cases hres : get_path_by_wd s e.wd with
    | none => simpa using hinv
    | some path =>
        by_cases hm : matches_pattern s.pats e.name
        · simpa [hm] using StateInv_process_event env s e.mask path e.name hinv
        · simpa [hm] using hinv

theorem StateInv_cleanup (s : WatcherState) (hinv : StateInv s) :
    StateInv (cleanup s).1 := hinv

theorem StateInv_reachable (env : Env) (s : WatcherState) (h : Reachable env s) :
    StateInv s := by
  induction h with
  | init rec pats fd => exact StateInv_initState rec pats fd
  | install s p _ ih => exact StateInv_add_watch env s p ih
  | registerCb s m pat cb _ ih => exact StateInv_register_callback s m pat cb ih
  | recurse s vs _ ih => exact StateInv_watch_recursively env vs s ih
  | event s e _ ih => exact StateInv_loopStep env s e ih
  | shutdown s _ ih => exact StateInv_cleanup s ih

theorem add_watch_success (env : Env) (s : WatcherState) (p : CStr)
    (hcap : s.watches.length < MAX_WATCHES) (hbad : p ∉ env.badPaths) :
    ∃ wd, (add_watch env s p).1 = some wd := by
  rcases add_watch_cases env s p with ⟨hr, _⟩ | ⟨q, _, _, _, hc⟩ | ⟨_, _, _, hc⟩
  · rcases hr with hr | hr
    · exact absurd hr (Nat.not_le_of_lt hcap)
    · exact absurd hr hbad
  · exact ⟨q.1, by rw [hc]⟩
  · exact ⟨s.nextWd, by rw [hc]⟩

theorem resolve_after_install (env : Env) (s : WatcherState) (p : CStr) (wd : Nat)
    (hinv : StateInv s) (h : (add_watch env s p).1 = some wd) :
    get_path_by_wd (add_watch env s p).2 wd = some (trunc p) := by
  obtain ⟨h1, h2, h3, _⟩ := hinv
  rcases add_watch_cases env s p with ⟨_, hc⟩ | ⟨q, hfind, _, _, hc⟩ | ⟨hfind, _, _, hc⟩
  · rw [hc] at h; simp at h
  · rw [hc] at h ⊢
    have hwd : q.1 = wd := by simpa using h
    have hqmem : q ∈ s.osTable := List.mem_of_find?_eq_some hfind
    have hq2 : q.2 = p := by simpa using List.find?_some hfind
    unfold get_path_by_wd
    dsimp only
    rw [List.find?_append]
    cases hf2 : s.watches.find? (fun w => decide (w.wd = wd)) with
    | some w =>
        have hw_mem : w ∈ s.watches := List.mem_of_find?_eq_some hf2
        have hw_wd : w.wd = wd := by simpa using List.find?_some hf2
        obtain ⟨full, hfull, hpath⟩ := h3 w hw_mem
        have hfp : full = p := by
          have hfun := h2 (w.wd, full) hfull q hqmem
          simp only at hfun
          rw [← hq2]
          exact hfun (by rw [hw_wd, hwd])
        simp [hpath, hfp]
    | none =>
        simp [List.find?, hwd]
  · rw [hc] at h ⊢
    have hwd : s.nextWd = wd := by simpa using h
    unfold get_path_by_wd
    dsimp only
    rw [List.find?_append]
    have hf2 : s.watches.find? (fun w => decide (w.wd = wd)) = none := by
      rw [List.find?_eq_none]
      intro w hw
      obtain ⟨full, hfull, _⟩ := h3 w hw
      have : w.wd < s.nextWd := h1 (w.wd, full) hfull
      simp only [decide_eq_true_eq]
      omega
    simp [hf2, List.find?, hwd]

theorem get_path_by_wd_none (s : WatcherState) (wd : Nat)
    (h : ∀ w ∈ s.watches, w.wd ≠ wd) : get_path_by_wd s wd = none := by
  unfold get_path_by_wd
  rw [List.find?_eq_none.mpr]
  · rfl
  · intro w hw
    simpa using h w hw

theorem get_path_by_wd_isSome (s : WatcherState) (w : WatchInfo)
    (hw : w ∈ s.watches) : (get_path_by_wd s w.wd).isSome = true := by
  have hfs : (s.watches.find? (fun x => decide (x.wd = w.wd))).isSome = true :=
    List.find?_isSome.mpr ⟨w, hw, by simp⟩
  obtain ⟨a, ha⟩ := Option.isSome_iff_exists.mp hfs
  unfold get_path_by_wd
  rw [ha]
  rfl

theorem trunc_eq_self (p : CStr) (h : p.length < PATH_MAX) : trunc p = p := by
  unfold trunc
  exact List.take_of_length_le (by omega)

theorem trunc_ne_self (p : CStr) (h : p.length ≥ PATH_MAX) : trunc p ≠ p := by
  intro he
  have hl := congrArg List.length he
  rw [trunc, List.length_take] at hl
  simp [PATH_MAX] at hl h
  omega

theorem trunc_fullPathOf (path name : CStr) :
    trunc (fullPathOf path name) = fullPathOf path name := by
  unfold trunc fullPathOf
  rw [List.take_take]
  simp

theorem rmAllWatches_length : ∀ l : List WatchInfo, rmAllWatches l = l.length
  | [] => rfl
  | _ :: ws => by simp [rmAllWatches, rmAllWatches_length ws, Nat.add_comm]

theorem matchLoop_iff (f : CStr) :
    ∀ pats : List CStr, matchLoop pats f = true ↔ ∃ p, p ∈ pats ∧ fnmatch p f = true := by
  intro pats
  induction pats with
  | nil => simp [matchLoop]
  | cons p ps ih =>
      unfold matchLoop
      by_cases hf : fnmatch p f
      · simp only [hf, if_true, true_iff]
        exact ⟨p, List.mem_cons_self p ps, hf⟩
      · simp only [hf, Bool.false_eq_true, if_false]
        rw [ih]
        constructor
        · rintro ⟨q, hq, hfq⟩
          exact ⟨q, List.mem_cons_of_mem p hq, hfq⟩
        · rintro ⟨q, hq, hfq⟩
          rcases List.mem_cons.mp hq with hq | hq
          · subst hq; exact absurd hfq (by simpa using hf)
          · exact ⟨q, hq, hfq⟩

/-- C9: a decoded raw event whose filename is absent (length zero name) is
skipped entirely by the event loop: the state (in particular the watch
table) is unchanged and no callback fires, even when the event carries the
Created and is-directory bits in recursive mode. -/
theorem fsw_C9 (env : Env) (s : WatcherState) (e : RawEvent) (h : e.name = []) :
    loopStep env s e = (s, []) := by
  unfold loopStep
  simp [h]

/-- Witness for C9 at a concrete directory-creation event with an absent
name, in a recursive-mode state. -/
theorem fsw_C9_witness :
    eEmpty.name = [] ∧ loopStep env0 (initState true [] 3) eEmpty = (initState true [] 3, []) :=
  ⟨rfl, fsw_C9 env0 (initState true [] 3) eEmpty rfl⟩

/-- C5: at the watch ceiling, add_watch fails and returns the state
unchanged; at the callback maximum, register_callback fails and returns the
state unchanged; below the maximum, register_callback appends the entry and
returns its index. -/
theorem fsw_C5 :
    (∀ (env : Env) (s : WatcherState) (p : CStr), s.watches.length ≥ MAX_WATCHES →
      add_watch env s p = (none, s)) ∧
    (∀ (s : WatcherState) (m : Nat) (pat : Option CStr) (cb : Nat),
      s.callbacks.length ≥ MAX_CALLBACKS → register_callback s m pat cb = (none, s)) ∧
    (∀ (s : WatcherState) (m : Nat) (pat : Option CStr) (cb : Nat),
      s.callbacks.length < MAX_CALLBACKS →
      register_callback s m pat cb =
        (some s.callbacks.length, { s with callbacks := s.callbacks ++ [⟨m, pat, cb⟩] })) := by
  refine ⟨?_, ?_, ?_⟩
  · intro env s p h
    simp [add_watch, h]
  · intro s m pat cb h
    simp [register_callback, h]
  · intro s m pat cb h
    have h2 : ¬ s.callbacks.length ≥ MAX_CALLBACKS := by omega
    simp [register_callback, h2]

/-- Witness for C5: a full watch table refuses an install unchanged, a full
callback table refuses a registration unchanged, and an empty callback
table accepts one and returns index zero. -/
theorem fsw_C5_witness :
    sFullW.watches.length ≥ MAX_WATCHES ∧ add_watch env0 sFullW wp = (none, sFullW) ∧
    sFullC.callbacks.length ≥ MAX_CALLBACKS ∧
    register_callback sFullC IN_CREATE none 0 = (none, sFullC) ∧
    (initState false [] 3).callbacks.length < MAX_CALLBACKS ∧
    register_callback (initState false [] 3) IN_DELETE none 7 =
      (some (initState false [] 3).callbacks.length,
        { initState false [] 3 with
            callbacks := (initState false [] 3).callbacks ++ [⟨IN_DELETE, none, 7⟩] }) := by
  have h1 : sFullW.watches.length ≥ MAX_WATCHES := by
    simp [sFullW, List.length_replicate]
  have h2 : sFullC.callbacks.length ≥ MAX_CALLBACKS := by
    simp [sFullC, List.length_replicate]
  have h3 : (initState false [] 3).callbacks.length < MAX_CALLBACKS := by decide
  exact ⟨h1, fsw_C5.1 env0 sFullW wp h1, h2, fsw_C5.2.1 sFullC IN_CREATE none 0 h2,
    h3, fsw_C5.2.2 (initState false [] 3) IN_DELETE none 7 h3⟩

/-- C7: matching with an empty pattern set accepts every filename, and with
a non-empty set it accepts exactly the filenames on which at least one
pattern fnmatch-succeeds; concrete evaluations exhibit star, question mark,
bracket class, and whole-string glob semantics. -/
theorem fsw_C7 :
    (∀ f : CStr, matches_pattern [] f = true) ∧
    (∀ (pats : List CStr) (f : CStr), pats ≠ [] →
      (matches_pattern pats f = true ↔ ∃ p, p ∈ pats ∧ fnmatch p f = true)) ∧
    fnmatch patLog nmLog = true ∧ fnmatch patLog nmTxt = false ∧
    fnmatch ['a', '?', 'c'] ['a', 'b', 'c'] = true ∧
    fnmatch ['[', 'a', '-', 'c', ']', 'x'] ['b', 'x'] = true ∧
    fnmatch ['a', 'b'] ['a', 'b', 'c'] = false := by
  refine ⟨?_, ?_, by decide, by decide, by decide, by decide, by decide⟩
  · intro f
    simp [matches_pattern]
  · intro pats f hne
    have hlen : ¬ pats.length = 0 := fun h => hne (List.length_eq_zero.mp h)
    unfold matches_pattern
    rw [if_neg hlen]
    exact matchLoop_iff f pats

/-- Witness for C7 at the concrete singleton pattern set star-dot-log. -/
theorem fsw_C7_witness :
    ([patLog] : List CStr) ≠ [] ∧
    (matches_pattern [patLog] nmLog = true ↔ ∃ p, p ∈ [patLog] ∧ fnmatch p nmLog = true) :=
  ⟨by simp, fsw_C7.2.1 [patLog] nmLog (by simp)⟩

/-- C6: the dispatch loop visits callback entries in registration order and
fires exactly those whose mask intersects the event mask and whose pattern
is absent or matches the filename; concretely, two callbacks with
overlapping masks and disjoint patterns fire exactly once on an event
matching both masks but one pattern, and an earlier firing does not stop
later entries. -/
theorem fsw_C6 :
    (∀ (cbs : List CallbackInfo) (mask : Nat) (path name : CStr),
      run_callbacks mask path name cbs =
        (cbs.filter (fun c => shouldInvoke c mask name)).map
          (fun c => ⟨c.cb, path, name⟩)) ∧
    run_callbacks IN_CREATE wp nmLog cbsOverlap = [⟨10, wp, nmLog⟩] ∧
    run_callbacks IN_CREATE wp nmLog cbsBoth = [⟨1, wp, nmLog⟩, ⟨2, wp, nmLog⟩] := by
  refine ⟨?_, by decide, by decide⟩
  intro cbs mask path name
  induction cbs with
  | nil => rfl
  | cons c rest ih =>
      by_cases h1 : band32 c.mask mask ≠ 0
      · cases hp : c.pat with
        | none => simp [run_callbacks, shouldInvoke, h1, hp, List.filter_cons, ih]
        | some pat =>
            by_cases h2 : fnmatch pat name <;>
              simp [run_callbacks, shouldInvoke, h1, hp, h2, List.filter_cons, ih]
      · simp [run_callbacks, shouldInvoke, h1, List.filter_cons, ih]

/-- C3, amended: cleanup performs exactly one removal attempt per table
entry, but it does not clear the registry (the state, including the live
count, is returned unchanged), and a second invocation repeats exactly the
same removal attempts, descriptor close and pattern deallocations rather
than being a no-op. -/
theorem fsw_C3_amended (s : WatcherState) :
    (cleanup s).2.rmAttempts = s.watches.length ∧
    (cleanup s).1 = s ∧
    cleanup ((cleanup s).1) = cleanup s :=
  ⟨rmAllWatches_length s.watches, rfl, rfl⟩

/-- C3 counterexample: with one successful install and one registered
callback owning a pattern, the first cleanup leaves one live entry in the
registry (not zero), and the second cleanup performs one removal attempt
and one pattern deallocation (not a no-op; the repeated deallocation is a
double free of the same pattern string). -/
theorem fsw_C3_cex :
    (cleanup sC3).1.watches.length = 1 ∧
    (cleanup ((cleanup sC3).1)).2.rmAttempts = 1 ∧
    (cleanup ((cleanup sC3).1)).2.frees = 1 := by
  refine ⟨by decide, by decide, by decide⟩

/-- C10: installing a path of length at least PATH_MAX stores only its
first PATH_MAX minus one characters, so resolving the returned handle
yields the truncated prefix, which differs from the original argument. -/
theorem fsw_C10 (env : Env) (s : WatcherState) (p : CStr) (hreach : Reachable env s)
    (hlen : p.length ≥ PATH_MAX) (hbad : p ∉ env.badPaths)
    (hcap : s.watches.length < MAX_WATCHES) :
    ∃ wd, (add_watch env s p).1 = some wd ∧
      get_path_by_wd (add_watch env s p).2 wd = some (p.take (PATH_MAX - 1)) ∧
      p.take (PATH_MAX - 1) ≠ p := by
  obtain ⟨wd, hwd⟩ := add_watch_success env s p hcap hbad
  have hinv := StateInv_reachable env s hreach
  refine ⟨wd, hwd, ?_, ?_⟩
  · simpa [trunc] using resolve_after_install env s p wd hinv hwd
  · simpa [trunc] using trunc_ne_self p hlen

/-- Witness for C10 at a 4096-character path installed into the startup
state. -/
theorem fsw_C10_witness :
    Reachable env0 (initState false [] 3) ∧ pLong.length ≥ PATH_MAX ∧
    pLong ∉ env0.badPaths ∧ (initState false [] 3).watches.length < MAX_WATCHES ∧
    ∃ wd, (add_watch env0 (initState false [] 3) pLong).1 = some wd ∧
      get_path_by_wd (add_watch env0 (initState false [] 3) pLong).2 wd =
        some (pLong.take (PATH_MAX - 1)) ∧
      pLong.take (PATH_MAX - 1) ≠ pLong := by
  have h1 : Reachable env0 (initState false [] 3) := Reachable.init false [] 3
  have h2 : pLong.length ≥ PATH_MAX := by simp [pLong, List.length_replicate]
  have h3 : pLong ∉ env0.badPaths := by simp [env0]
  have h4 : (initState false [] 3).watches.length < MAX_WATCHES := by decide
  exact ⟨h1, h2, h3, h4, fsw_C10 env0 (initState false [] 3) pLong h1 h2 h3 h4⟩

/-- C8, amended: for a path shorter than PATH_MAX, resolve after install
returns exactly that path, and resolve on a handle held by no live entry
returns absent without failing; the original clause about removed handles
does not hold because no operation ever deletes registry entries (see the
counterexample). -/
theorem fsw_C8_amended (env : Env) (s : WatcherState) (p : CStr) (hreach : Reachable env s)
    (hlen : p.length < PATH_MAX) (hbad : p ∉ env.badPaths)
    (hcap : s.watches.length < MAX_WATCHES) :
    (∃ wd, (add_watch env s p).1 = some wd ∧
      get_path_by_wd (add_watch env s p).2 wd = some p) ∧
    (∀ wd, (∀ w ∈ s.watches, w.wd ≠ wd) → get_path_by_wd s wd = none) := by
  have hinv := StateInv_reachable env s hreach
  obtain ⟨wd, hwd⟩ := add_watch_success env s p hcap hbad
  refine ⟨⟨wd, hwd, ?_⟩, ?_⟩
  · have h := resolve_after_install env s p wd hinv hwd
    rwa [trunc_eq_self p hlen] at h
  · intro wd2 h
    exact get_path_by_wd_none s wd2 h

/-- Witness for C8 at the short concrete root path installed into the
startup state. -/
theorem fsw_C8_witness :
    wp.length < PATH_MAX ∧
    (∃ wd, (add_watch env0 (initState false [] 3) wp).1 = some wd ∧
      get_path_by_wd (add_watch env0 (initState false [] 3) wp).2 wd = some wp) ∧
    (∀ wd, (∀ w ∈ (initState false [] 3).watches, w.wd ≠ wd) →
      get_path_by_wd (initState false [] 3) wd = none) := by
  have h := fsw_C8_amended env0 (initState false [] 3) wp (Reachable.init false [] 3)
    (by decide) (by simp [env0]) (by decide)
  exact ⟨by decide, h.1, h.2⟩

/-- C8 counterexample: resolve after install is not the identity for every
path (a 4096-character path resolves to its truncated prefix), and a handle
whose watch has been removed by cleanup still resolves to its path instead
of returning absent, because cleanup does not clear the registry. -/
theorem fsw_C8_cex :
    ((add_watch env0 (initState false [] 3) pLong).1 = some 1 ∧
      get_path_by_wd (add_watch env0 (initState false [] 3) pLong).2 1 ≠ some pLong) ∧
    get_path_by_wd (cleanup s8b).1 1 = some wp := by
  constructor
  · have hwd : (add_watch env0 (initState false [] 3) pLong).1 = some 1 := by rfl
    refine ⟨hwd, ?_⟩
    have hres := resolve_after_install env0 (initState false [] 3) pLong 1
      (StateInv_initState false [] 3) hwd
    rw [hres]
    intro he
    exact trunc_ne_self pLong (by simp [pLong, List.length_replicate]) (Option.some.inj he)
  · decide

/-- C4, amended: in every reachable state, two live entries that share a
handle share the same stored path (full uniqueness fails, see the
counterexample: re-installing a watched path duplicates its handle), and
lookup succeeds for the handle of every live entry; handles are never
individually removed. -/
theorem fsw_C4_amended (env : Env) (s : WatcherState) (hreach : Reachable env s) :
    (∀ w1 ∈ s.watches, ∀ w2 ∈ s.watches, w1.wd = w2.wd → w1.path = w2.path) ∧
    (∀ w ∈ s.watches, (get_path_by_wd s w.wd).isSome = true) := by
  obtain ⟨_, h2, h3, _⟩ := StateInv_reachable env s hreach
  refine ⟨?_, ?_⟩
  · intro w1 hw1 w2 hw2 heq
    obtain ⟨f1, hf1, hp1⟩ := h3 w1 hw1
    obtain ⟨f2, hf2, hp2⟩ := h3 w2 hw2
    have hff : f1 = f2 := h2 (w1.wd, f1) hf1 (w2.wd, f2) hf2 (by simpa using heq)
    rw [hp1, hp2, hff]
  · intro w hw
    exact get_path_by_wd_isSome s w hw

/-- Witness for C4 at the reachable state that installs the root twice. -/
theorem fsw_C4_witness :
    Reachable env0 sDup ∧
    ((∀ w1 ∈ sDup.watches, ∀ w2 ∈ sDup.watches, w1.wd = w2.wd → w1.path = w2.path) ∧
      (∀ w ∈ sDup.watches, (get_path_by_wd sDup w.wd).isSome = true)) :=
  have h : Reachable env0 sDup :=
    Reachable.install _ wp (Reachable.install _ wp (Reachable.init true [] 3))
  ⟨h, fsw_C4_amended env0 sDup h⟩

/-- C4 counterexample: installing the same root path twice (exactly what
main plus the recursive walk do) is reachable and yields two live entries
carrying the same handle, so handle values of live entries are not pairwise
distinct. -/
theorem fsw_C4_cex :
    Reachable env0 sDup ∧ sDup.watches.map (fun w => w.wd) = [1, 1] ∧
    ¬ (sDup.watches.map (fun w => w.wd)).Pairwise (fun a b => a ≠ b) := by
  refine ⟨Reachable.install _ wp (Reachable.install _ wp (Reachable.init true [] 3)),
    by decide, by decide⟩

/-- C1, amended: for a directory-creation event in recursive mode with a
resolvable descriptor and a non-empty name, a mismatch of the global
pattern set skips the whole record, the auto-watch included; only when the
name also matches the pattern set is a watch installed for the new
directory path (parent slash name). -/
theorem fsw_C1_amended (env : Env) (s : WatcherState) (e : RawEvent) (path : CStr)
    (hname : e.name ≠ []) (hres : get_path_by_wd s e.wd = some path)
    (hrec : s.recursive_mode = true) (hcr : band32 e.mask IN_CREATE ≠ 0)
    (hdir : band32 e.mask IN_ISDIR ≠ 0) :
    (matches_pattern s.pats e.name = false → loopStep env s e = (s, [])) ∧
    (matches_pattern s.pats e.name = true → s.watches.length < MAX_WATCHES →
      fullPathOf path e.name ∉ env.badPaths →
      ((loopStep env s e).1.watches.map fun w => w.path) =
        (s.watches.map fun w => w.path) ++ [fullPathOf path e.name]) := by
  have hlen : ¬ e.name.length = 0 := fun h => hname (List.length_eq_zero.mp h)
  constructor
  · intro hm
    simp [loopStep, hlen, hres, hm]
  · intro hm hcap hbad
    unfold loopStep
    simp only [hlen, if_false, hres, hm, if_true]
    unfold process_event
    rw [if_pos ⟨hrec, hcr, hdir⟩]
    dsimp only
    rcases add_watch_cases env s (fullPathOf path e.name) with
      ⟨hr, hc⟩ | ⟨q, _, _, _, hc⟩ | ⟨_, _, _, hc⟩
    · rcases hr with hr | hr
      · exact absurd hr (by omega)
      · exact absurd hr hbad
    · rw [hc]
      simp [trunc_fullPathOf]
    · rw [hc]
      simp [trunc_fullPathOf]

/-- C1 counterexample: in recursive mode with the global pattern set
star-dot-log, a directory-creation event for a new subdirectory named new
satisfies every premise of the claim, yet the event loop leaves the state
unchanged: no watch is installed for the new directory, because the
auto-watch sits behind the global pattern filter. -/
theorem fsw_C1_cex :
    sC1.recursive_mode = true ∧ band32 eC1.mask IN_CREATE ≠ 0 ∧
    band32 eC1.mask IN_ISDIR ≠ 0 ∧ eC1.name ≠ [] ∧
    get_path_by_wd sC1 eC1.wd = some wp ∧
    matches_pattern sC1.pats eC1.name = false ∧
    loopStep env0 sC1 eC1 = (sC1, []) := by
  refine ⟨by decide, by decide, by decide, by decide, by decide, by decide, by decide⟩

/-- Witness for C1 at a state with no configured patterns, where the
directory-creation event does match and the auto-watch fires. -/
theorem fsw_C1_witness :
    eC1.name ≠ [] ∧ get_path_by_wd sW1 eC1.wd = some wp ∧
    matches_pattern sW1.pats eC1.name = true ∧
    (((loopStep env0 sW1 eC1).1.watches.map fun w => w.path) =
      (sW1.watches.map fun w => w.path) ++ [fullPathOf wp nmNew]) := by
  refine ⟨by decide, by decide, by decide, ?_⟩
  exact (fsw_C1_amended env0 sW1 eC1 wp (by decide) (by decide) (by decide) (by decide)
    (by decide)).2 (by decide) (by decide) (by simp [env0])

/-- C2: the recursive installer re-installs the root. The callback comment
says the root (already watched by the caller) is excluded, but the check
level greater or equal zero is vacuously true, so over a tree consisting of
the root alone (one directory), starting from a state where main already
watched the root, the walk installs one additional watch and the table
holds two entries with the same descriptor, where the claim expects zero
additional installs. Over a tree with root, a child whose install the OS
rejects, a grandchild below it and a sibling, the failing child still does
not prevent the grandchild and the sibling from being installed. -/
theorem fsw_C2_bug :
    ((watch_recursively env0 (add_watch env0 (initState true [] 3) wp).2
        visitsRootOnly).watches.map (fun w => (w.wd, w.path)) = [(1, wp), (1, wp)]) ∧
    ((watch_recursively envB sStartB visitsB).watches.map (fun w => w.path) =
      [wp, wp, grandA, childB]) := by
  refine ⟨by decide, by decide⟩
